import Mathlib

/-! Todo store of `src/App.jsx`.

A shallow embedding of the state-carrying part of the `App` component: the
`todos` state, the five handlers that update it (`addTodo`, `deleteTodo`,
`toggleComplete`, `editTodo`, `clearAll`), the `useState` initialiser that
loads the collection from `localStorage`, and the `useEffect` that writes it
back.  Rendering, `alert` and `console.error` do not touch the state and are
left out; the answers of the environment (`confirm`, `Date.now`,
`Math.random`, `new Date().toISOString()`, and whether
`localStorage.setItem` returns or throws) are explicit arguments.
-/

namespace TodoApp

/-! ## Data model -/

/-- Line 3: the `localStorage` key under which the collection is kept. -/
def STORAGE_KEY : String := "todos_v1"

/-- The object literal built by `addTodo` (lines 27-33). -/
structure TodoItem where
  id : String
  text : String
  completed : Bool
  notes : String
  createdAt : String
deriving DecidableEq

/-- The `newFields` argument of `editTodo`: a JavaScript object that may carry
any of the keys of a todo.  `none` means the key is not present. -/
structure Fields where
  id : Option String
  text : Option String
  completed : Option Bool
  notes : Option String
  createdAt : Option String
deriving DecidableEq

/-- The component state together with the value stored in `localStorage`
under `STORAGE_KEY` (`none` when the key is absent). -/
structure Store where
  todos : List TodoItem
  blob : Option String
deriving DecidableEq

/-- What the environment answers during one call of `addTodo`: `Date.now()`
(milliseconds, a non-negative integer), the text of
`Math.random().toString(36)`, the text of `new Date().toISOString()`, and
whether the `localStorage.setItem` of the effect that follows the call returns
normally (`true`) or throws (`false`). -/
structure Env where
  now : Nat
  random36 : String
  isoNow : String
  writeOk : Bool
deriving DecidableEq

/-! ## `String.prototype.trim` -/

/-- The code points removed by `String.prototype.trim`: ECMAScript `WhiteSpace`
(TAB, VT, FF, ZWNBSP and the Unicode space separators) and `LineTerminator`
(LF, CR, LS, PS). -/
def isWhiteSpace (c : Char) : Bool :=
  let n := c.toNat
  n == 0x09 || n == 0x0A || n == 0x0B || n == 0x0C || n == 0x0D || n == 0x20 ||
  n == 0xA0 || n == 0x1680 || (0x2000 ≤ n && n ≤ 0x200A) || n == 0x2028 ||
  n == 0x2029 || n == 0x202F || n == 0x205F || n == 0x3000 || n == 0xFEFF

/-- Strip white space from the end of a list of characters. -/
def trimEnd (cs : List Char) : List Char :=
  (cs.reverse.dropWhile isWhiteSpace).reverse

/-- Strip white space from both ends of a list of characters. -/
def trimChars (cs : List Char) : List Char :=
  trimEnd (cs.dropWhile isWhiteSpace)

/-- The method `text.trim()`. -/
def trim (s : String) : String := String.mk (trimChars s.data)

/-! ## `uid` -/

/-- One digit of `Number.prototype.toString(36)`: `0`-`9`, then `a`-`z`. -/
def digit36 (d : Nat) : Char :=
  if d < 10 then Char.ofNat (48 + d) else Char.ofNat (87 + d)

/-- The base-36 digits of `n`, most significant first, in front of `acc`. -/
def toDigits36 : Nat → Nat → List Char → List Char
  | 0, _, acc => acc
  | fuel + 1, n, acc =>
    if n / 36 = 0 then digit36 (n % 36) :: acc
    else toDigits36 fuel (n / 36) (digit36 (n % 36) :: acc)

/-- The call `n.toString(36)` for a non-negative integer `n`. -/
def toString36 (n : Nat) : String := String.mk (toDigits36 (n + 1) n [])

/-- The call `s.slice(start, stop)` for non-negative indices. -/
def slice (s : String) (start stop : Nat) : String :=
  String.mk ((s.data.take stop).drop start)

/-- Line 2: `Date.now().toString(36) + Math.random().toString(36).slice(2, 8)`. -/
def uid (env : Env) : String :=
  toString36 env.now ++ slice env.random36 2 8

/-! ## The handlers

Every handler ends in `setTodos`; the render that follows runs the effect of
lines 16-18.  Whether the `localStorage.setItem` of that effect returns
normally is an answer of the environment: `writeOk`, a field of `Env` for
`addTodo` and an argument of the other handlers. -/

/-- Lines 16-18: the effect that runs after every change of `todos`.
`localStorage.setItem(STORAGE_KEY, JSON.stringify(todos))` overwrites the
stored value when it returns normally.  The call is not inside a `try`: when
it throws (quota exceeded, storage not available) the stored value stays what
it was, while `todos` is already the new state. -/
def persist (stringify : List TodoItem → String) (writeOk : Bool) (todos : List TodoItem)
    (blob : Option String) : Store :=
  { todos := todos, blob := if writeOk then some (stringify todos) else blob }

/-- The state setter `setTodos(updater)` followed by the render it triggers,
whose effect writes the new collection back. -/
def setTodos (stringify : List TodoItem → String) (writeOk : Bool)
    (updater : List TodoItem → List TodoItem) (s : Store) : Store :=
  persist stringify writeOk (updater s.todos) s.blob

/-- Lines 20-37. -/
def addTodo (stringify : List TodoItem → String) (env : Env) (text : String)
    (s : Store) : Bool × Store :=
  let trimmed := trim text
  if trimmed = "" then (false, s)
  else
    let newTodo : TodoItem :=
      { id := uid env, text := trimmed, completed := false, notes := "",
        createdAt := env.isoNow }
    (true, setTodos stringify env.writeOk (fun prev => newTodo :: prev) s)

/-- Lines 39-41. -/
def deleteTodo (stringify : List TodoItem → String) (writeOk : Bool) (id : String)
    (s : Store) : Store :=
  setTodos stringify writeOk (fun prev => prev.filter (fun t => t.id != id)) s

/-- Lines 43-47. -/
def toggleComplete (stringify : List TodoItem → String) (writeOk : Bool) (id : String)
    (s : Store) : Store :=
  setTodos stringify writeOk
    (fun prev => prev.map (fun t => if t.id = id then { t with completed := !t.completed } else t)) s

/-- The object spread `{ ...t, ...newFields }`: every key present in
`newFields` overwrites the key of `t`. -/
def spread (t : TodoItem) (newFields : Fields) : TodoItem :=
  { id := newFields.id.getD t.id
    text := newFields.text.getD t.text
    completed := newFields.completed.getD t.completed
    notes := newFields.notes.getD t.notes
    createdAt := newFields.createdAt.getD t.createdAt }

/-- Lines 49-51. -/
def editTodo (stringify : List TodoItem → String) (writeOk : Bool) (id : String)
    (newFields : Fields) (s : Store) : Store :=
  setTodos stringify writeOk
    (fun prev => prev.map (fun t => if t.id = id then spread t newFields else t)) s

/-- Lines 53-55; `confirmed` is the answer of `confirm("Clear all todos?")`. -/
def clearAll (stringify : List TodoItem → String) (writeOk : Bool) (confirmed : Bool)
    (s : Store) : Store :=
  if confirmed then setTodos stringify writeOk (fun _ => []) s else s

/-! ## JSON values, `JSON.stringify` and `JSON.parse`

The two built-ins belong to the platform, not to the repository.  The
handlers above take the serialiser as an argument; `load` below takes the
parser as an argument.  `jsonStringify` and `jsonParse` are executable models
of the built-ins (ECMA-404 grammar), used to run the definitions on concrete
blobs. -/

/-- A value that `JSON.parse` can return.  A number is kept as the numeral it
was read from; its conversion to a double plays no role here. -/
inductive JSValue where
  | null
  | bool (b : Bool)
  | num (numeral : String)
  | str (s : String)
  | arr (items : List JSValue)
  | obj (members : List (String × JSValue))

/-- The double quote, U+0022. -/
def dquote : Char := Char.ofNat 34

/-- The reverse solidus, U+005C. -/
def rsolidus : Char := Char.ofNat 92

/-- One lower-case hexadecimal digit. -/
def hexDigit (d : Nat) : Char :=
  if d < 10 then Char.ofNat (48 + d) else Char.ofNat (87 + d)

/-- The characters `JSON.stringify` writes for one character of a string. -/
def quoteChar (c : Char) : List Char :=
  let n := c.toNat
  if n = 34 then [rsolidus, dquote]
  else if n = 92 then [rsolidus, rsolidus]
  else if n = 8 then [rsolidus, 'b']
  else if n = 9 then [rsolidus, 't']
  else if n = 10 then [rsolidus, 'n']
  else if n = 12 then [rsolidus, 'f']
  else if n = 13 then [rsolidus, 'r']
  else if n < 32 then [rsolidus, 'u', '0', '0', hexDigit (n / 16), hexDigit (n % 16)]
  else [c]

/-- The JSON text of a string: `JSON.stringify(s)`. -/
def quote (s : String) : List Char :=
  dquote :: (s.data.flatMap quoteChar ++ [dquote])

/-- The JSON text of one todo; the keys come in the order of the object
literal of `addTodo`, which `{ ...t, ...newFields }` keeps. -/
def stringifyItem (t : TodoItem) : List Char :=
  "\x7b\"id\":".data ++ quote t.id ++ ",\"text\":".data ++ quote t.text ++
  ",\"completed\":".data ++ (if t.completed then "true".data else "false".data) ++
  ",\"notes\":".data ++ quote t.notes ++ ",\"createdAt\":".data ++ quote t.createdAt ++
  "\x7d".data

/-- A model of `JSON.stringify(todos)` for an array of todos. -/
def jsonStringify (todos : List TodoItem) : String :=
  String.mk ('[' :: ((todos.map stringifyItem).intersperse [',']).flatten ++ [']'])

/-- JSON white space: space, TAB, LF, CR. -/
def isJSONSpace (c : Char) : Bool :=
  c.toNat == 32 || c.toNat == 9 || c.toNat == 10 || c.toNat == 13

/-- Drop leading JSON white space. -/
def skipWS (cs : List Char) : List Char := cs.dropWhile isJSONSpace

/-- The value of a hexadecimal digit, if it is one. -/
def hexValue (c : Char) : Option Nat :=
  let n := c.toNat
  if 48 ≤ n ∧ n ≤ 57 then some (n - 48)
  else if 97 ≤ n ∧ n ≤ 102 then some (n - 87)
  else if 65 ≤ n ∧ n ≤ 70 then some (n - 55)
  else none

/-- The code unit written by four hexadecimal digits. -/
def hex4 (a b c d : Char) : Option Nat :=
  match hexValue a, hexValue b, hexValue c, hexValue d with
  | some w, some x, some y, some z => some (((w * 16 + x) * 16 + y) * 16 + z)
  | _, _, _, _ => none

/-- The character of a one-letter escape. -/
def unescape (c : Char) : Option Char :=
  let n := c.toNat
  if n = 34 then some dquote
  else if n = 92 then some rsolidus
  else if n = 47 then some '/'
  else if n = 98 then some (Char.ofNat 8)
  else if n = 102 then some (Char.ofNat 12)
  else if n = 110 then some (Char.ofNat 10)
  else if n = 114 then some (Char.ofNat 13)
  else if n = 116 then some (Char.ofNat 9)
  else none

/-- The low surrogate written as a `u` escape at the head of `cs`, if any. -/
def lowSurrogate (cs : List Char) : Option (Nat × List Char) :=
  match cs with
  | e :: u :: a :: b :: c :: d :: rest =>
    if e = rsolidus ∧ u = 'u' then
      match hex4 a b c d with
      | some lo => if 0xDC00 ≤ lo ∧ lo ≤ 0xDFFF then some (lo, rest) else none
      | none => none
    else none
  | _ => none

/-- Read a string after its opening quote: the characters up to the closing
quote, decoded, and the input after it.  A surrogate pair of `u` escapes gives
one character; an unpaired surrogate, which a `Char` cannot hold, is read as
U+FFFD. -/
def parseString : Nat → List Char → List Char → Option (List Char × List Char)
  | 0, _, _ => none
  | _ + 1, [], _ => none
  | fuel + 1, c :: r, acc =>
    if c = dquote then some (acc.reverse, r)
    else if c = rsolidus then
      match r with
      | [] => none
      | e :: r1 =>
        if e = 'u' then
          match r1 with
          | a :: b :: c1 :: d :: r2 =>
            match hex4 a b c1 d with
            | none => none
            | some n =>
              if 0xD800 ≤ n ∧ n ≤ 0xDBFF then
                match lowSurrogate r2 with
                | some (lo, r3) =>
                  parseString fuel r3 (Char.ofNat (0x10000 + (n - 0xD800) * 1024 + (lo - 0xDC00)) :: acc)
                | none => parseString fuel r2 (Char.ofNat 0xFFFD :: acc)
              else if 0xDC00 ≤ n ∧ n ≤ 0xDFFF then parseString fuel r2 (Char.ofNat 0xFFFD :: acc)
              else parseString fuel r2 (Char.ofNat n :: acc)
          | _ => none
        else
          match unescape e with
          | none => none
          | some ch => parseString fuel r1 (ch :: acc)
    else if c.toNat < 32 then none
    else parseString fuel r (c :: acc)

/-- A decimal digit. -/
def isDigit (c : Char) : Bool := 48 ≤ c.toNat && c.toNat ≤ 57

/-- The optional exponent of a number. -/
def parseExponent (acc cs : List Char) : Option (List Char × List Char) :=
  match cs with
  | e :: r =>
    if e = 'e' ∨ e = 'E' then
      let sign := r.takeWhile (fun c => c = '+' ∨ c = '-')
      let sign1 := sign.take 1
      let r1 := r.drop sign1.length
      let ds := r1.takeWhile isDigit
      if ds = [] then none else some (acc ++ e :: sign1 ++ ds, r1.dropWhile isDigit)
    else some (acc, cs)
  | [] => some (acc, cs)

/-- The optional fraction of a number, then its exponent. -/
def parseFraction (acc cs : List Char) : Option (List Char × List Char) :=
  match cs with
  | p :: r =>
    if p = '.' then
      let ds := r.takeWhile isDigit
      if ds = [] then none else parseExponent (acc ++ p :: ds) (r.dropWhile isDigit)
    else parseExponent acc cs
  | [] => some (acc, cs)

/-- Read a number: its numeral and the input after it. -/
def parseNumber (cs : List Char) : Option (List Char × List Char) :=
  let sign := (cs.takeWhile (fun c => c = '-')).take 1
  match cs.drop sign.length with
  | [] => none
  | d :: r =>
    if d = '0' then parseFraction (sign ++ [d]) r
    else if isDigit d then
      parseFraction (sign ++ d :: r.takeWhile isDigit) (r.dropWhile isDigit)
    else none

mutual

/-- Read one JSON value, with the white space in front of it. -/
def parseValue : Nat → List Char → Option (JSValue × List Char)
  | 0, _ => none
  | fuel + 1, cs =>
    match skipWS cs with
    | [] => none
    | c :: r =>
      if c = dquote then
        match parseString r.length r [] with
        | some (s, r1) => some (JSValue.str (String.mk s), r1)
        | none => none
      else if c = '[' then
        match skipWS r with
        | [] => none
        | c1 :: r1 => if c1 = ']' then some (JSValue.arr [], r1) else parseElements fuel r []
      else if c.toNat = 123 then
        match skipWS r with
        | [] => none
        | c1 :: r1 => if c1.toNat = 125 then some (JSValue.obj [], r1) else parseMembers fuel r []
      else if (c :: r).take 4 = "null".data then some (JSValue.null, r.drop 3)
      else if (c :: r).take 4 = "true".data then some (JSValue.bool true, r.drop 3)
      else if (c :: r).take 5 = "false".data then some (JSValue.bool false, r.drop 4)
      else
        match parseNumber (c :: r) with
        | some (numeral, r1) => some (JSValue.num (String.mk numeral), r1)
        | none => none

/-- Read the elements of an array up to its closing bracket. -/
def parseElements : Nat → List Char → List JSValue → Option (JSValue × List Char)
  | 0, _, _ => none
  | fuel + 1, cs, acc =>
    match parseValue fuel cs with
    | none => none
    | some (v, r) =>
      match skipWS r with
      | [] => none
      | c :: r1 =>
        if c = ',' then parseElements fuel r1 (v :: acc)
        else if c = ']' then some (JSValue.arr (v :: acc).reverse, r1)
        else none

/-- Read the members of an object up to its closing brace.  A key that comes
twice keeps its first place and takes the later value. -/
def parseMembers : Nat → List Char → List (String × JSValue) → Option (JSValue × List Char)
  | 0, _, _ => none
  | fuel + 1, cs, acc =>
    match skipWS cs with
    | [] => none
    | q :: r =>
      if q = dquote then
        match parseString r.length r [] with
        | none => none
        | some (k, r1) =>
          match skipWS r1 with
          | [] => none
          | colon :: r2 =>
            if colon = ':' then
              match parseValue fuel r2 with
              | none => none
              | some (v, r3) =>
                let key := String.mk k
                let acc1 :=
                  if acc.any (fun kv => kv.1 = key) then
                    acc.map (fun kv => if kv.1 = key then (key, v) else kv)
                  else acc ++ [(key, v)]
                match skipWS r3 with
                | [] => none
                | c :: r4 =>
                  if c = ',' then parseMembers fuel r4 acc1
                  else if c.toNat = 125 then some (JSValue.obj acc1, r4)
                  else none
            else none
      else none

end

/-- A model of `JSON.parse(text)`: the value read when the whole text is one
JSON value, `none` when the built-in throws a `SyntaxError`.  A value nested
`d` deep is at least `d` characters long, so the fuel is never used up. -/
def jsonParse (text : String) : Option JSValue :=
  match parseValue (text.length + 1) text.data with
  | some (v, r) => if skipWS r = [] then some v else none
  | none => none

/-! ## Loading -/

/-- Lines 6-14, the `useState` initialiser.  `raw` is the answer of
`localStorage.getItem(STORAGE_KEY)` (`none` for `null`); the empty string is
falsy, so it gives `[]` as well; `parse s = none` stands for `JSON.parse`
throwing, which the `catch` turns into `[]`. -/
def load (parse : String → Option JSValue) (raw : Option String) : JSValue :=
  match raw with
  | none => JSValue.arr []
  | some s =>
    if s = "" then JSValue.arr []
    else
      match parse s with
      | some v => v
      | none => JSValue.arr []

/-! ## Runs of calls and the invariant -/

/-- A run of `addTodo` calls, each with the answers of the environment at
that call and the text typed, starting from the store `s`. -/
def addAll (stringify : List TodoItem → String) (calls : List (Env × String))
    (s : Store) : Store :=
  calls.foldl (fun st call => (addTodo stringify call.1 call.2 st).2) s

/-- The calls of a run whose text `addTodo` accepts. -/
def accepted (calls : List (Env × String)) : List (Env × String) :=
  calls.filter (fun call => decide (trim call.2 ≠ ""))

/-- The value of one base-36 digit. -/
def digitValue36 (c : Char) : Nat :=
  if c.toNat < 58 then c.toNat - 48 else c.toNat - 87

/-- The number written by a list of base-36 digits. -/
def value36 (cs : List Char) : Nat :=
  cs.foldl (fun v c => 36 * v + digitValue36 c) 0

/-- Invariant I1: every item has a text that is not empty after trimming. -/
def I1 (todos : List TodoItem) : Prop := ∀ t ∈ todos, trim t.text ≠ ""

instance (todos : List TodoItem) : Decidable (I1 todos) := by
  unfold I1; infer_instance

/-! ## Basic facts -/

@[simp] theorem setTodos_todos (stringify : List TodoItem → String) (writeOk : Bool)
    (updater : List TodoItem → List TodoItem) (s : Store) :
    (setTodos stringify writeOk updater s).todos = updater s.todos := rfl

@[simp] theorem setTodos_blob (stringify : List TodoItem → String) (writeOk : Bool)
    (updater : List TodoItem → List TodoItem) (s : Store) :
    (setTodos stringify writeOk updater s).blob =
      if writeOk then some (stringify (updater s.todos)) else s.blob := rfl

theorem deleteTodo_todos (stringify : List TodoItem → String) (writeOk : Bool) (id : String) (s : Store) :
    (deleteTodo stringify writeOk id s).todos = s.todos.filter (fun t => t.id != id) := rfl

theorem toggleComplete_todos (stringify : List TodoItem → String) (writeOk : Bool) (id : String) (s : Store) :
    (toggleComplete stringify writeOk id s).todos =
      s.todos.map (fun t => if t.id = id then { t with completed := !t.completed } else t) := rfl

theorem editTodo_todos (stringify : List TodoItem → String) (writeOk : Bool) (id : String) (newFields : Fields)
    (s : Store) :
    (editTodo stringify writeOk id newFields s).todos =
      s.todos.map (fun t => if t.id = id then spread t newFields else t) := rfl

theorem addTodo_of_blank (stringify : List TodoItem → String) (env : Env) (text : String)
    (s : Store) (h : trim text = "") : addTodo stringify env text s = (false, s) := by
  simp [addTodo, h]

theorem addTodo_of_not_blank (stringify : List TodoItem → String) (env : Env) (text : String)
    (s : Store) (h : trim text ≠ "") :
    addTodo stringify env text s =
      (true, persist stringify env.writeOk
        ({ id := uid env, text := trim text, completed := false, notes := "",
           createdAt := env.isoNow } :: s.todos) s.blob) := by
  simp [addTodo, h, setTodos]

theorem dropWhile_trimEnd (l : List Char) (h : l.dropWhile isWhiteSpace = l) :
    (trimEnd l).dropWhile isWhiteSpace = trimEnd l := by
  cases l with
  | nil => rfl
  | cons a l1 =>
    have ha : ¬ isWhiteSpace a = true := by
      have := (List.dropWhile_eq_self_iff).1 h (by simp)
      simpa using this
    obtain ⟨r, hr⟩ : ∃ r, trimEnd (a :: l1) ++ r = a :: l1 :=
      List.rdropWhile_prefix isWhiteSpace (a :: l1)
    cases hm : trimEnd (a :: l1) with
    | nil => rfl
    | cons b m =>
      rw [hm] at hr
      have hb : b = a := by
        have := List.head_eq_of_cons_eq hr
        exact this
      rw [hb, List.dropWhile_cons_of_neg ha]

theorem trimChars_idem (cs : List Char) : trimChars (trimChars cs) = trimChars cs := by
  unfold trimChars
  rw [dropWhile_trimEnd _ (List.dropWhile_idempotent isWhiteSpace cs)]
  exact List.rdropWhile_idempotent isWhiteSpace (cs.dropWhile isWhiteSpace)

theorem trim_idem (s : String) : trim (trim s) = trim s := by
  unfold trim
  rw [trimChars_idem]

theorem spread_text (t : TodoItem) (newFields : Fields) :
    (spread t newFields).text = newFields.text.getD t.text := rfl

theorem addAll_nil (stringify : List TodoItem → String) (s : Store) :
    addAll stringify [] s = s := rfl

theorem addAll_cons (stringify : List TodoItem → String) (call : Env × String)
    (calls : List (Env × String)) (s : Store) :
    addAll stringify (call :: calls) s =
      addAll stringify calls (addTodo stringify call.1 call.2 s).2 := rfl

/-- The ids after a run of `addTodo` calls: the ids made by `uid` for the calls
whose text was accepted, newest first, in front of the ids held before. -/
theorem addAll_ids_append (stringify : List TodoItem → String) (calls : List (Env × String))
    (s : Store) :
    (addAll stringify calls s).todos.map (fun t => t.id) =
      ((accepted calls).map (fun call => uid call.1)).reverse
        ++ s.todos.map (fun t => t.id) := by
  unfold accepted
  induction calls generalizing s with
  | nil => simp [addAll_nil]
  | cons call calls ih =>
    rw [addAll_cons, ih]
    by_cases h : trim call.2 = ""
    · rw [addTodo_of_blank stringify call.1 call.2 s h]
      simp [h]
    · rw [addTodo_of_not_blank stringify call.1 call.2 s h]
      simp [h, persist]

theorem digitValue36_digit36 : ∀ d, d < 36 → digitValue36 (digit36 d) = d := by
  decide

theorem toDigits36_append (fuel n : Nat) (acc : List Char) :
    toDigits36 fuel n acc = toDigits36 fuel n [] ++ acc := by
  induction fuel generalizing n acc with
  | zero => rfl
  | succ fuel ih =>
    unfold toDigits36
    by_cases h : n / 36 = 0
    · simp [h]
    · rw [if_neg h, if_neg h, ih (n / 36) (digit36 (n % 36) :: acc),
        ih (n / 36) [digit36 (n % 36)]]
      simp

theorem value36_toDigits36 (fuel n : Nat) (h : n < fuel) :
    value36 (toDigits36 fuel n []) = n := by
  induction fuel generalizing n with
  | zero => omega
  | succ fuel ih =>
    unfold toDigits36
    by_cases h0 : n / 36 = 0
    · rw [if_pos h0]
      have hn : n % 36 = n := Nat.mod_eq_of_lt (by omega)
      simp [value36, hn, digitValue36_digit36 n (by omega)]
    · rw [if_neg h0, toDigits36_append]
      have hq : n / 36 < fuel := by omega
      have hv := ih (n / 36) hq
      unfold value36 at hv ⊢
      rw [List.foldl_append, hv]
      simp only [List.foldl_cons, List.foldl_nil]
      rw [digitValue36_digit36 (n % 36) (Nat.mod_lt n (by decide))]
      omega

theorem toString36_injective (a b : Nat) (h : toString36 a = toString36 b) : a = b := by
  have hd : toDigits36 (a + 1) a [] = toDigits36 (b + 1) b [] := by
    have := congrArg String.data h
    exact this
  have hv := congrArg value36 hd
  rw [value36_toDigits36 _ _ (Nat.lt_succ_self a), value36_toDigits36 _ _ (Nat.lt_succ_self b)] at hv
  exact hv

/-- Two ids made by `uid` from clock readings with equally many base-36 digits
are equal only if the clock readings and the six random digits are equal. -/
theorem uid_eq_iff_of_length (e1 e2 : Env)
    (hl : (toString36 e1.now).length = (toString36 e2.now).length) (h : uid e1 = uid e2) :
    e1.now = e2.now ∧ slice e1.random36 2 8 = slice e2.random36 2 8 := by
  have hd : (toString36 e1.now).data ++ (slice e1.random36 2 8).data =
      (toString36 e2.now).data ++ (slice e2.random36 2 8).data := by
    have := congrArg String.data h
    simpa [uid, String.data_append] using this
  obtain ⟨h1, h2⟩ := List.append_inj hd hl
  exact ⟨toString36_injective _ _ (String.ext h1), String.ext h2⟩

/-! ## The claims -/

/-- C1: when the trimmed text is empty, `addTodo` returns `false` and the store
is the one it was given: neither the collection nor the stored blob changes. -/
theorem addTodo_rejects_blank (stringify : List TodoItem → String) (env : Env) (text : String)
    (s : Store) (h : trim text = "") :
    (addTodo stringify env text s).1 = false ∧ (addTodo stringify env text s).2 = s := by
  rw [addTodo_of_blank stringify env text s h]
  exact ⟨rfl, rfl⟩

/-- C1 at a concrete call: a text of three spaces is rejected and the store is kept. -/
theorem addTodo_rejects_blank_witness :
    trim "   " = "" ∧
    (addTodo jsonStringify ⟨7, "0.abc", "t1", true⟩ "   " ⟨[⟨"a", "x", false, "", "t0"⟩], none⟩).1 = false ∧
    (addTodo jsonStringify ⟨7, "0.abc", "t1", true⟩ "   " ⟨[⟨"a", "x", false, "", "t0"⟩], none⟩).2 =
      ⟨[⟨"a", "x", false, "", "t0"⟩], none⟩ :=
  ⟨by decide, addTodo_rejects_blank jsonStringify ⟨7, "0.abc", "t1", true⟩ "   "
    ⟨[⟨"a", "x", false, "", "t0"⟩], none⟩ (by decide)⟩

/-- C2: when the trimmed text is not empty, `addTodo` returns `true` and the new
collection is one new item followed by the old collection; the new item has the
trimmed text, `completed = false`, `notes = ""`, the id made by `uid` and the
creation time read from the clock. -/
theorem addTodo_prepends (stringify : List TodoItem → String) (env : Env) (text : String)
    (s : Store) (h : trim text ≠ "") :
    (addTodo stringify env text s).1 = true ∧
    (addTodo stringify env text s).2.todos =
      { id := uid env, text := trim text, completed := false, notes := "",
        createdAt := env.isoNow } :: s.todos := by
  rw [addTodo_of_not_blank stringify env text s h]
  exact ⟨rfl, rfl⟩

/-- C2 at a concrete call: the text of the example of the specification is trimmed and put in front. -/
theorem addTodo_prepends_witness :
    trim "  buy milk " ≠ "" ∧
    (addTodo jsonStringify ⟨36, "0.4fzyo82mvyr", "t1", true⟩ "  buy milk "
      ⟨[⟨"a", "x", true, "n", "t0"⟩], none⟩).1 = true ∧
    (addTodo jsonStringify ⟨36, "0.4fzyo82mvyr", "t1", true⟩ "  buy milk "
      ⟨[⟨"a", "x", true, "n", "t0"⟩], none⟩).2.todos =
      [⟨"104fzyo8", "buy milk", false, "", "t1"⟩, ⟨"a", "x", true, "n", "t0"⟩] :=
  ⟨by decide, addTodo_prepends jsonStringify ⟨36, "0.4fzyo82mvyr", "t1", true⟩ "  buy milk "
    ⟨[⟨"a", "x", true, "n", "t0"⟩], none⟩ (by decide)⟩

/-- C3, as stated, fails: when `confirm` answers no, `clearAll` leaves a
non-empty collection as it is. -/
theorem clearAll_declined_keeps_collection :
    (clearAll jsonStringify true false ⟨[⟨"a", "x", false, "", "t0"⟩], none⟩).todos =
      [⟨"a", "x", false, "", "t0"⟩] ∧
    (clearAll jsonStringify true false ⟨[⟨"a", "x", false, "", "t0"⟩], none⟩).todos ≠ [] := by
  decide

/-- C3, amended: `clearAll` asks `confirm` itself; when the answer is yes the
collection becomes empty whatever it held (and the empty collection is written
back, the stored value staying as it was only if that write throws), when the
answer is no the store is unchanged. -/
theorem clearAll_spec (stringify : List TodoItem → String) (writeOk : Bool) (confirmed : Bool)
    (s : Store) :
    (clearAll stringify writeOk true s).todos = [] ∧
    (clearAll stringify true true s).blob = some (stringify []) ∧
    (clearAll stringify writeOk true s).blob =
      (if writeOk then some (stringify []) else s.blob) ∧
    clearAll stringify writeOk false s = s ∧
    (clearAll stringify writeOk confirmed s).todos = if confirmed then [] else s.todos := by
  refine ⟨rfl, rfl, rfl, rfl, ?_⟩
  cases confirmed <;> rfl

/-- C6: toggling the same id twice gives back the whole collection; one toggle
keeps the length, negates `completed` on the items with that id and leaves
every other item as it is; when no item has the id nothing changes. -/
theorem toggleComplete_spec (stringify : List TodoItem → String) (writeOk : Bool) (id : String) (s : Store) :
    (toggleComplete stringify writeOk id (toggleComplete stringify writeOk id s)).todos = s.todos ∧
    (toggleComplete stringify writeOk id s).todos.length = s.todos.length ∧
    (∀ (i : Nat) (t : TodoItem), s.todos[i]? = some t →
      (toggleComplete stringify writeOk id s).todos[i]? =
        some (if t.id = id then ⟨t.id, t.text, !t.completed, t.notes, t.createdAt⟩ else t)) ∧
    ((∀ t ∈ s.todos, t.id ≠ id) → (toggleComplete stringify writeOk id s).todos = s.todos) := by
  refine ⟨?_, ?_, ?_, ?_⟩
  · rw [toggleComplete_todos, toggleComplete_todos, List.map_map]
    conv_rhs => rw [← List.map_id s.todos]
    apply List.map_congr_left
    intro t _
    obtain ⟨a, b, c, d, e⟩ := t
    by_cases h : a = id <;> simp [h]
  · rw [toggleComplete_todos, List.length_map]
  · intro i t ht
    rw [toggleComplete_todos, List.getElem?_map, ht]
    rfl
  · intro h
    rw [toggleComplete_todos]
    conv_rhs => rw [← List.map_id s.todos]
    apply List.map_congr_left
    intro t ht
    simp [h t ht]

/-- C6 at concrete stores: an absent id changes nothing, a present id negates `completed`. -/
theorem toggleComplete_spec_witness :
    (toggleComplete jsonStringify true "z" ⟨[⟨"a", "x", false, "", "t0"⟩], none⟩).todos =
      [⟨"a", "x", false, "", "t0"⟩] ∧
    (toggleComplete jsonStringify true "a" ⟨[⟨"a", "x", false, "", "t0"⟩], none⟩).todos[0]? =
      some ⟨"a", "x", true, "", "t0"⟩ :=
  ⟨(toggleComplete_spec jsonStringify true "z" ⟨[⟨"a", "x", false, "", "t0"⟩], none⟩).2.2.2 (by decide),
   (toggleComplete_spec jsonStringify true "a" ⟨[⟨"a", "x", false, "", "t0"⟩], none⟩).2.2.1 0
      ⟨"a", "x", false, "", "t0"⟩ rfl⟩

/-- C7: `deleteTodo` keeps exactly the items whose id differs from the given
one, in their original order; deleting an id that no item has changes nothing,
and deleting the same id a second time gives the same store as deleting it
once (the same collection whatever the two writes did, the same store when
they did the same). -/
theorem deleteTodo_spec (stringify : List TodoItem → String) (writeOk : Bool) (id : String)
    (s : Store) :
    (deleteTodo stringify writeOk id s).todos = s.todos.filter (fun t => decide (t.id ≠ id)) ∧
    (deleteTodo stringify writeOk id s).todos.Sublist s.todos ∧
    (∀ t, t ∈ (deleteTodo stringify writeOk id s).todos ↔ t ∈ s.todos ∧ t.id ≠ id) ∧
    ((∀ t ∈ s.todos, t.id ≠ id) → (deleteTodo stringify writeOk id s).todos = s.todos) ∧
    (∀ w1 w2 : Bool, (deleteTodo stringify w2 id (deleteTodo stringify w1 id s)).todos =
      (deleteTodo stringify w1 id s).todos) ∧
    deleteTodo stringify writeOk id (deleteTodo stringify writeOk id s) =
      deleteTodo stringify writeOk id s := by
  have hff : ∀ l : List TodoItem,
      (l.filter (fun t => t.id != id)).filter (fun t => t.id != id) =
        l.filter (fun t => t.id != id) := by
    intro l
    rw [List.filter_filter]
    apply List.filter_congr
    intro t _
    simp
  refine ⟨?_, ?_, ?_, ?_, ?_, ?_⟩
  · rw [deleteTodo_todos]
    apply List.filter_congr
    intro t _
    by_cases h : t.id = id <;> simp [h]
  · rw [deleteTodo_todos]
    exact List.filter_sublist _
  · intro t
    rw [deleteTodo_todos, List.mem_filter]
    simp
  · intro h
    rw [deleteTodo_todos, List.filter_eq_self]
    intro t ht
    simpa using h t ht
  · intro w1 w2
    exact hff s.todos
  · cases writeOk <;> simp [deleteTodo, setTodos, persist, hff]

/-- C7 at a concrete store: deleting an id that no item has keeps both items. -/
theorem deleteTodo_spec_witness :
    (deleteTodo jsonStringify true "z" ⟨[⟨"a", "x", false, "", "t0"⟩, ⟨"b", "y", true, "", "t1"⟩], none⟩).todos =
      [⟨"a", "x", false, "", "t0"⟩, ⟨"b", "y", true, "", "t1"⟩] :=
  (deleteTodo_spec jsonStringify true "z"
    ⟨[⟨"a", "x", false, "", "t0"⟩, ⟨"b", "y", true, "", "t1"⟩], none⟩).2.2.2.1 (by decide)

/-- C4, as stated, fails: `editTodo` writes an empty text into an item of a
collection that satisfied I1. -/
theorem editTodo_breaks_I1 :
    I1 [⟨"a", "x", false, "", "t0"⟩] ∧
    (editTodo jsonStringify true "a" ⟨none, some "", none, none, none⟩
      ⟨[⟨"a", "x", false, "", "t0"⟩], none⟩).todos = [⟨"a", "", false, "", "t0"⟩] ∧
    ¬ I1 (editTodo jsonStringify true "a" ⟨none, some "", none, none, none⟩
      ⟨[⟨"a", "x", false, "", "t0"⟩], none⟩).todos := by
  decide

/-- C4, amended: I1 is preserved by `addTodo`, `deleteTodo`, `toggleComplete`
and `clearAll`, and by `editTodo` when the supplied fields carry no text or a
text that is not empty after trimming. -/
theorem I1_preserved (stringify : List TodoItem → String) (writeOk : Bool) (env : Env) (text id : String)
    (newFields : Fields) (confirmed : Bool) (s : Store) (h : I1 s.todos) :
    I1 (addTodo stringify env text s).2.todos ∧
    I1 (deleteTodo stringify writeOk id s).todos ∧
    I1 (toggleComplete stringify writeOk id s).todos ∧
    ((∀ x, newFields.text = some x → trim x ≠ "") →
      I1 (editTodo stringify writeOk id newFields s).todos) ∧
    I1 (clearAll stringify writeOk confirmed s).todos := by
  refine ⟨?_, ?_, ?_, ?_, ?_⟩
  · by_cases hb : trim text = ""
    · rw [addTodo_of_blank stringify env text s hb]; exact h
    · rw [addTodo_of_not_blank stringify env text s hb]
      intro t ht
      rcases List.mem_cons.1 ht with rfl | ht
      · show trim (trim text) ≠ ""
        rw [trim_idem]; exact hb
      · exact h t ht
  · intro t ht
    rw [deleteTodo_todos] at ht
    exact h t (List.mem_filter.1 ht).1
  · intro t ht
    rw [toggleComplete_todos] at ht
    obtain ⟨u, hu, rfl⟩ := List.mem_map.1 ht
    by_cases hid : u.id = id
    · rw [if_pos hid]; exact h u hu
    · rw [if_neg hid]; exact h u hu
  · intro hf t ht
    rw [editTodo_todos] at ht
    obtain ⟨u, hu, rfl⟩ := List.mem_map.1 ht
    by_cases hid : u.id = id
    · rw [if_pos hid, spread_text]
      cases hx : newFields.text with
      | none => exact h u hu
      | some x => exact hf x hx
    · rw [if_neg hid]; exact h u hu
  · cases confirmed
    · exact h
    · intro t ht; cases ht

/-- C4 (amended) at a concrete store: an accepted `addTodo` and an `editTodo` with a non-blank text keep I1. -/
theorem I1_preserved_witness :
    I1 [⟨"a", "x", false, "", "t0"⟩] ∧
    I1 (addTodo jsonStringify ⟨36, "0.4fzyo82mvyr", "t1", true⟩ " y "
      ⟨[⟨"a", "x", false, "", "t0"⟩], none⟩).2.todos ∧
    I1 (editTodo jsonStringify true "a" ⟨none, some "z", none, some "n", none⟩
      ⟨[⟨"a", "x", false, "", "t0"⟩], none⟩).todos :=
  ⟨by decide,
   (I1_preserved jsonStringify true ⟨36, "0.4fzyo82mvyr", "t1", true⟩ " y " "a"
      ⟨none, some "z", none, some "n", none⟩ true ⟨[⟨"a", "x", false, "", "t0"⟩], none⟩
      (by decide)).1,
   (I1_preserved jsonStringify true ⟨36, "0.4fzyo82mvyr", "t1", true⟩ " y " "a"
      ⟨none, some "z", none, some "n", none⟩ true ⟨[⟨"a", "x", false, "", "t0"⟩], none⟩
      (by decide)).2.2.2.1 (by decide)⟩

/-- C5: for every collection, every id and every fields object of the kind
`edit` takes (keys among `text`, `completed` and `notes`; no `id` and no
`createdAt` key), `editTodo` keeps the length and the order; an item with
another id is unchanged; an item with the given id gets each supplied field
and keeps every other field, its id and creation time included; so the ids and
the creation times of all items are what they were; and when no item has the
id the collection is unchanged. -/
theorem editTodo_spec (stringify : List TodoItem → String) (writeOk : Bool) (id : String)
    (newFields : Fields) (s : Store)
    (hid : newFields.id = none) (hcreated : newFields.createdAt = none) :
    (editTodo stringify writeOk id newFields s).todos.length = s.todos.length ∧
    (∀ (i : Nat) (t : TodoItem), s.todos[i]? = some t → t.id ≠ id →
      (editTodo stringify writeOk id newFields s).todos[i]? = some t) ∧
    (∀ (i : Nat) (t : TodoItem), s.todos[i]? = some t → t.id = id →
      (editTodo stringify writeOk id newFields s).todos[i]? =
        some ⟨t.id, newFields.text.getD t.text, newFields.completed.getD t.completed,
          newFields.notes.getD t.notes, t.createdAt⟩) ∧
    (editTodo stringify writeOk id newFields s).todos.map (fun t => t.id) =
      s.todos.map (fun t => t.id) ∧
    (editTodo stringify writeOk id newFields s).todos.map (fun t => t.createdAt) =
      s.todos.map (fun t => t.createdAt) ∧
    ((∀ t ∈ s.todos, t.id ≠ id) →
      (editTodo stringify writeOk id newFields s).todos = s.todos) := by
  refine ⟨?_, ?_, ?_, ?_, ?_, ?_⟩
  · rw [editTodo_todos, List.length_map]
  · intro i t ht hne
    rw [editTodo_todos, List.getElem?_map, ht]
    simp [hne]
  · intro i t ht heq
    rw [editTodo_todos, List.getElem?_map, ht]
    simp [heq, spread, hid, hcreated]
  · rw [editTodo_todos, List.map_map]
    apply List.map_congr_left
    intro t _
    by_cases h : t.id = id <;> simp [h, spread, hid]
  · rw [editTodo_todos, List.map_map]
    apply List.map_congr_left
    intro t _
    by_cases h : t.id = id <;> simp [h, spread, hcreated]
  · intro h
    rw [editTodo_todos]
    conv_rhs => rw [← List.map_id s.todos]
    apply List.map_congr_left
    intro t ht
    simp [h t ht]

/-- C5 at a concrete store: the edit of the example scenario, with the fields
the caller at line 161 passes, changes text and notes of the matching item
and nothing else; an id that no item has changes nothing. -/
theorem editTodo_spec_witness :
    (editTodo jsonStringify true "a" ⟨none, some "y", none, some "due Friday", none⟩
      ⟨[⟨"b", "w", true, "", "t1"⟩, ⟨"a", "x", false, "", "t0"⟩], none⟩).todos[0]? =
      some ⟨"b", "w", true, "", "t1"⟩ ∧
    (editTodo jsonStringify true "a" ⟨none, some "y", none, some "due Friday", none⟩
      ⟨[⟨"b", "w", true, "", "t1"⟩, ⟨"a", "x", false, "", "t0"⟩], none⟩).todos[1]? =
      some ⟨"a", "y", false, "due Friday", "t0"⟩ ∧
    (editTodo jsonStringify true "z" ⟨none, some "y", none, some "due Friday", none⟩
      ⟨[⟨"b", "w", true, "", "t1"⟩, ⟨"a", "x", false, "", "t0"⟩], none⟩).todos =
      [⟨"b", "w", true, "", "t1"⟩, ⟨"a", "x", false, "", "t0"⟩] :=
  ⟨(editTodo_spec jsonStringify true "a" ⟨none, some "y", none, some "due Friday", none⟩
      ⟨[⟨"b", "w", true, "", "t1"⟩, ⟨"a", "x", false, "", "t0"⟩], none⟩ rfl rfl).2.1 0
      ⟨"b", "w", true, "", "t1"⟩ rfl (by decide),
   (editTodo_spec jsonStringify true "a" ⟨none, some "y", none, some "due Friday", none⟩
      ⟨[⟨"b", "w", true, "", "t1"⟩, ⟨"a", "x", false, "", "t0"⟩], none⟩ rfl rfl).2.2.1 1
      ⟨"a", "x", false, "", "t0"⟩ rfl rfl,
   (editTodo_spec jsonStringify true "z" ⟨none, some "y", none, some "due Friday", none⟩
      ⟨[⟨"b", "w", true, "", "t1"⟩, ⟨"a", "x", false, "", "t0"⟩], none⟩ rfl rfl).2.2.2.2.2
      (by decide)⟩

/-- C8, as stated, fails: two calls of `addTodo` in the same millisecond whose
random numbers agree in their first six base-36 digits get the same id. -/
theorem addAll_duplicate_ids :
    (addAll jsonStringify
      [(⟨1730764800000, "0.4fzyo82mvyr", "t0", true⟩, "a"), (⟨1730764800000, "0.4fzyo8k1c9d", "t0", true⟩, "b")]
      ⟨[], none⟩).todos.map (fun t => t.id) = ["m33ooao04fzyo8", "m33ooao04fzyo8"] ∧
    ¬ ((addAll jsonStringify
      [(⟨1730764800000, "0.4fzyo82mvyr", "t0", true⟩, "a"), (⟨1730764800000, "0.4fzyo8k1c9d", "t0", true⟩, "b")]
      ⟨[], none⟩).todos.map (fun t => t.id)).Nodup := by
  decide

/-- C8, amended: after a run of `addTodo` calls from the empty collection the
ids in the collection are the ids `uid` made for the accepted calls, newest
first, and nothing else; so they are pairwise distinct exactly when those ids
are, which the store does not check.  They are pairwise distinct in particular
when any two accepted calls read clocks with equally many base-36 digits and
differ in the clock reading or in the six random digits. -/
theorem addAll_ids (stringify : List TodoItem → String) (calls : List (Env × String))
    (blob : Option String) :
    (addAll stringify calls ⟨[], blob⟩).todos.map (fun t => t.id) =
      ((accepted calls).map (fun call => uid call.1)).reverse ∧
    (((addAll stringify calls ⟨[], blob⟩).todos.map (fun t => t.id)).Nodup ↔
      ((accepted calls).map (fun call => uid call.1)).Nodup) ∧
    ((accepted calls).Pairwise (fun c1 c2 =>
        (toString36 c1.1.now).length = (toString36 c2.1.now).length ∧
        (c1.1.now ≠ c2.1.now ∨ slice c1.1.random36 2 8 ≠ slice c2.1.random36 2 8)) →
      ((addAll stringify calls ⟨[], blob⟩).todos.map (fun t => t.id)).Nodup) := by
  have hids : (addAll stringify calls ⟨[], blob⟩).todos.map (fun t => t.id) =
      ((accepted calls).map (fun call => uid call.1)).reverse := by
    rw [addAll_ids_append]; simp
  refine ⟨hids, ?_, ?_⟩
  · rw [hids, List.nodup_reverse]
  · intro hp
    rw [hids, List.nodup_reverse, List.Nodup, List.pairwise_map]
    refine hp.imp ?_
    intro c1 c2 hc heq
    obtain ⟨hnow, hrand⟩ := uid_eq_iff_of_length c1.1 c2.1 hc.1 heq
    rcases hc.2 with h | h
    · exact h hnow
    · exact h hrand

/-- C8 (amended) at a concrete run: two accepted calls one millisecond apart get distinct ids. -/
theorem addAll_ids_witness :
    ((addAll jsonStringify
      [(⟨1730764800000, "0.4fzyo82mvyr", "t0", true⟩, "a"), (⟨1730764800000, "0.4fzyo8k1c9d", "t0", true⟩, " "),
       (⟨1730764800001, "0.4fzyo8k1c9d", "t1", true⟩, "b")]
      ⟨[], none⟩).todos.map (fun t => t.id)).Nodup :=
  (addAll_ids jsonStringify
      [(⟨1730764800000, "0.4fzyo82mvyr", "t0", true⟩, "a"), (⟨1730764800000, "0.4fzyo8k1c9d", "t0", true⟩, " "),
       (⟨1730764800001, "0.4fzyo8k1c9d", "t1", true⟩, "b")] none).2.2 (by decide)

/-- C9: the code at stored blobs that are valid JSON but no array.  The
initialiser returns what `JSON.parse` decoded, the number for the blob `5` and
`null` for the blob `null`, neither of them a sequence of items, while for an
absent key, an empty text and a text that `JSON.parse` rejects it returns the
empty collection. -/
theorem load_returns_non_collection :
    load jsonParse (some "5") = JSValue.num "5" ∧
    load jsonParse (some "null") = JSValue.null ∧
    (¬ ∃ items, load jsonParse (some "5") = JSValue.arr items) ∧
    (¬ ∃ items, load jsonParse (some "null") = JSValue.arr items) ∧
    load jsonParse none = JSValue.arr [] ∧
    load jsonParse (some "") = JSValue.arr [] ∧
    load jsonParse (some "[1,]") = JSValue.arr [] := by
  have h5 : load jsonParse (some "5") = JSValue.num "5" := rfl
  have hnull : load jsonParse (some "null") = JSValue.null := rfl
  refine ⟨h5, hnull, ?_, ?_, rfl, rfl, rfl⟩
  · rintro ⟨items, hi⟩
    rw [h5] at hi
    cases hi
  · rintro ⟨items, hi⟩
    rw [hnull] at hi
    cases hi

/-- C10, as stated, fails: when the `localStorage.setItem` of the effect throws,
an `addTodo` that returns `true` holds the new item in memory while the stored
blob is still the serialisation of the old collection. -/
theorem addTodo_failed_write_leaves_blob :
    (addTodo jsonStringify ⟨36, "0.4fzyo82mvyr", "t1", false⟩ "buy milk"
      ⟨[⟨"a", "x", false, "", "t0"⟩], some (jsonStringify [⟨"a", "x", false, "", "t0"⟩])⟩).1 = true ∧
    (addTodo jsonStringify ⟨36, "0.4fzyo82mvyr", "t1", false⟩ "buy milk"
      ⟨[⟨"a", "x", false, "", "t0"⟩], some (jsonStringify [⟨"a", "x", false, "", "t0"⟩])⟩).2.todos =
      [⟨"104fzyo8", "buy milk", false, "", "t1"⟩, ⟨"a", "x", false, "", "t0"⟩] ∧
    (addTodo jsonStringify ⟨36, "0.4fzyo82mvyr", "t1", false⟩ "buy milk"
      ⟨[⟨"a", "x", false, "", "t0"⟩], some (jsonStringify [⟨"a", "x", false, "", "t0"⟩])⟩).2.blob =
      some (jsonStringify [⟨"a", "x", false, "", "t0"⟩]) ∧
    (addTodo jsonStringify ⟨36, "0.4fzyo82mvyr", "t1", false⟩ "buy milk"
      ⟨[⟨"a", "x", false, "", "t0"⟩], some (jsonStringify [⟨"a", "x", false, "", "t0"⟩])⟩).2.blob ≠
      some (jsonStringify
        (addTodo jsonStringify ⟨36, "0.4fzyo82mvyr", "t1", false⟩ "buy milk"
          ⟨[⟨"a", "x", false, "", "t0"⟩],
            some (jsonStringify [⟨"a", "x", false, "", "t0"⟩])⟩).2.todos) := by
  decide

/-- C10, amended: write-through when the write goes through.  After a handler
that changes the collection (`deleteTodo`, `toggleComplete`, `editTodo`, an
`addTodo` that returns `true`, a confirmed `clearAll`) the stored blob is the
serialisation of the whole new collection when `localStorage.setItem` returns
normally, and is the blob held before when it throws, the change staying in
memory; a rejected `addTodo` and a declined `clearAll` write nothing. -/
theorem write_through (stringify : List TodoItem → String) (writeOk : Bool) (env : Env)
    (text id : String) (newFields : Fields) (confirmed : Bool) (s : Store) :
    (addTodo stringify env text s).2.blob =
      (if (addTodo stringify env text s).1 && env.writeOk then
        some (stringify (addTodo stringify env text s).2.todos) else s.blob) ∧
    (deleteTodo stringify writeOk id s).blob =
      (if writeOk then some (stringify (deleteTodo stringify writeOk id s).todos)
        else s.blob) ∧
    (toggleComplete stringify writeOk id s).blob =
      (if writeOk then some (stringify (toggleComplete stringify writeOk id s).todos)
        else s.blob) ∧
    (editTodo stringify writeOk id newFields s).blob =
      (if writeOk then some (stringify (editTodo stringify writeOk id newFields s).todos)
        else s.blob) ∧
    (clearAll stringify writeOk confirmed s).blob =
      (if confirmed && writeOk then
        some (stringify (clearAll stringify writeOk confirmed s).todos) else s.blob) := by
  refine ⟨?_, rfl, rfl, rfl, ?_⟩
  · by_cases h : trim text = ""
    · rw [addTodo_of_blank stringify env text s h]; rfl
    · rw [addTodo_of_not_blank stringify env text s h]
      cases hw : env.writeOk <;> simp [persist, hw]
  · cases confirmed <;> cases writeOk <;> rfl

end TodoApp
